import Mathlib

/-!
# Object lessons: the point classes

A shallow embedding of `object_lessons/object_lesson03.cpp` (the fixed 3D class
`Point3d<T>`) and `object_lessons/object_lesson04.cpp` (the dimension-generic class
`Point<T, dim>` with its asserting `operator[]` and its `operator<<`), followed by the
properties proved about them.

Conventions of the embedding.

* `int` values are `Int`; the only arithmetic the sources do on them is `dim - 1` and
  `index++` below `dim`, which cannot overflow.
* An output stream is the text written to it so far, a `String`; `os << x` appends the text
  of `x`.  The text of a coordinate of type `T` is `toString` (for `Int` this is the decimal
  text that `std::ostream` prints).
* Code that can stop abnormally returns `Except Fault _`.  `assert` is taken as compiled in
  (no `NDEBUG`), so a failing assertion is the fault `Fault.assertion`.
* A counted loop `for (int i = lo; i < hi; i++) body` is `forLoop lo hi body`.
-/

namespace ObjectLessons

/-- The ways the modelled code stops abnormally. -/
inductive Fault where
  /-- A failing `assert ( ... )`: the process is aborted. -/
  | assertion
  /-- A raw array subscript outside the array: undefined behaviour in the source. -/
  | undefined
  deriving DecidableEq, Repr

deriving instance DecidableEq for Except

/-- The macro `assert ( c )` of `<assert.h>`: nothing happens when `c` holds, the run stops
otherwise. -/
def assert (c : Bool) : Except Fault Unit :=
  if c then .ok () else .error .assertion

/-- The iterations of a counted loop: `n` iterations remain, the counter is `i`. -/
def forLoop.go {σ : Type} (body : Int → σ → Except Fault σ) : Nat → Int → σ → Except Fault σ
  | 0, _, s => .ok s
  | n + 1, i, s =>
    match body i s with
    | .ok s1 => forLoop.go body n (i + 1) s1
    | .error e => .error e

/-- The loop `for ( int i = lo; i < hi; i++ ) body`, where `body` changes neither `i` nor
`hi`: it runs `body` for `i = lo, lo + 1, ..., hi - 1` (not at all when `hi ≤ lo`) and stops
at the first fault. -/
def forLoop {σ : Type} (lo hi : Int) (body : Int → σ → Except Fault σ) (s : σ) :
    Except Fault σ :=
  forLoop.go body (hi - lo).toNat lo s

/-- The raw subscript `coords[ index ]` on a caller-supplied array that holds the values
`coords`: reading outside it is undefined behaviour. -/
def readArray {T : Type} (coords : List T) (index : Int) : Except Fault T :=
  if 0 ≤ index then
    match coords[index.toNat]? with
    | some c => .ok c
    | none => .error .undefined
  else .error .undefined

/-! ## `object_lesson04.cpp`: `Point<T, dim>` -/

namespace Lesson04

/-- The class `Point<T, dim>`: its only member is the array `T _coords[ dim ]`, which has
exactly `dim` cells by its type. -/
structure Point (T : Type) (dim : Nat) where
  /-- The member `T _coords[ dim ]`. -/
  _coords : List T
  /-- The array type fixes the number of cells. -/
  size_eq : _coords.length = dim
  deriving DecidableEq

namespace Point

variable {T : Type} {dim : Nat}

/-- Reading through a reference to the cell `r` of `_coords`. -/
def load (p : Point T dim) (r : Fin dim) : T :=
  p._coords.get ⟨r.val, by rw [p.size_eq]; exact r.isLt⟩

/-- Assigning through a reference to the cell `r` of `_coords`. -/
def store (p : Point T dim) (r : Fin dim) (v : T) : Point T dim :=
  ⟨p._coords.set r.val v, by rw [List.length_set]; exact p.size_eq⟩

/-- The raw subscript `_coords[ index ]` as an lvalue: the cell it designates, undefined
behaviour outside the array. -/
def subscript (dim : Nat) (index : Int) : Except Fault (Fin dim) :=
  if h : 0 ≤ index ∧ index < dim then .ok ⟨index.toNat, by omega⟩ else .error .undefined

/-- The member `T& operator[] ( int index )`: asserts `index < dim && index >= 0` and
returns a reference to `_coords[ index ]`. -/
def operatorIndex (_p : Point T dim) (index : Int) : Except Fault (Fin dim) := do
  assert (decide (index < dim) && decide (index ≥ 0))
  subscript dim index

/-- The member `T operator[] ( int index ) const`: asserts `index < dim && index >= 0` and
returns the value of `_coords[ index ]`. -/
def operatorIndexConst (p : Point T dim) (index : Int) : Except Fault T := do
  assert (decide (index < dim) && decide (index ≥ 0))
  let r ← subscript dim index
  pure (p.load r)

/-- The statement `pt[ index ] = value;` on a mutable point: the outcome together with the
point as it is when the statement ends or stops. -/
def Set (p : Point T dim) (index : Int) (value : T) : Except Fault Unit × Point T dim :=
  match p.operatorIndex index with
  | .ok r => (.ok (), p.store r value)
  | .error e => (.error e, p)

/-- The expression `pt[ index ]` read on a `const` point: the outcome together with the
point, which a `const` member cannot change. -/
def Get (p : Point T dim) (index : Int) : Except Fault T × Point T dim :=
  (p.operatorIndexConst index, p)

/-- The body `_coords[ index ] = coords[ index ];` of the loop of the constructor: `coords`
is the caller's array, `self` the point under construction. -/
def Construct.body (coords : List T) (index : Int) (self : Point T dim) :
    Except Fault (Point T dim) := do
  let c ← readArray coords index
  let r ← subscript dim index
  pure (self.store r c)

/-- The constructor `Point( T coords[ dim ] )`.  The parameter is a pointer, so the caller
may supply an array of any length, here the list `coords`.  `mem` is the indeterminate
content of `_coords` before the loop, which overwrites the cells `0 .. dim - 1` in turn. -/
def Construct (mem : Point T dim) (coords : List T) : Except Fault (Point T dim) :=
  forLoop 0 dim (Construct.body coords) mem

/-- The statements `pt[ index ] = value;` for the pairs `(index, value)` of `calls`, run in
order.  A failing statement leaves the point as it is (see `Set`) and the run goes on with
the next one; in the source the process is aborted at a failing statement, which is the case
of a sequence that ends there. -/
def SetAll (p : Point T dim) (calls : List (Int × T)) : Point T dim :=
  calls.foldl (fun q c => (q.Set c.1 c.2).2) p

/-- Modelled from the spec: the constructor `Point()` is declared in the class but defined
nowhere in the repository; the specification mandates that it sets all `dim` coordinates to
zero. -/
def ConstructDefault [Zero T] : Point T dim :=
  ⟨List.replicate dim 0, List.length_replicate dim 0⟩

end Point

/-- The body `os << pt[ ix ] << ", ";` of the loop of `operator<<`. -/
def operatorShl.body {T : Type} {dim : Nat} [ToString T] (pt : Point T dim) (ix : Int)
    (os : String) : Except Fault String := do
  let c ← pt.operatorIndexConst ix
  pure (os ++ toString c ++ ", ")

/-- The function `operator<<( std::ostream &os, const Point<T, dim>& pt )`: the text of the
stream after the call, `os` being its text before.  The source function ends without a
`return` statement, so the returned reference is not modelled. -/
def operatorShl {T : Type} {dim : Nat} [ToString T] (os : String) (pt : Point T dim) :
    Except Fault String := do
  let os := os ++ "( "
  let os ← forLoop 0 ((dim : Int) - 1) (operatorShl.body pt) os
  let c ← pt.operatorIndexConst ((dim : Int) - 1)
  let os := os ++ toString c
  pure (os ++ " )")

/-- A run of `operator<<` observed in full: the text of the stream, the point the function
was given, and the indices it has passed to `operator[]` so far, oldest first. -/
structure ShlState (T : Type) (dim : Nat) where
  /-- The text of the stream `os`. -/
  os : String
  /-- The point `pt`. -/
  pt : Point T dim
  /-- The indices passed to `operator[]`, in the order of the calls. -/
  reads : List Int
  deriving DecidableEq

/-- The expression `pt[ ix ]` inside `operator<<`: the index is recorded and the `const`
`operator[]` is called on the point. -/
def operatorShlTraced.read {T : Type} {dim : Nat} (st : ShlState T dim) (ix : Int) :
    Except Fault (T × ShlState T dim) :=
  match st.pt.Get ix with
  | (.ok c, q) => .ok (c, { st with pt := q, reads := st.reads ++ [ix] })
  | (.error e, _) => .error e

/-- The body `os << pt[ ix ] << ", ";` of the loop of `operator<<`, on the observed run. -/
def operatorShlTraced.body {T : Type} {dim : Nat} [ToString T] (ix : Int)
    (st : ShlState T dim) : Except Fault (ShlState T dim) := do
  let (c, st) ← operatorShlTraced.read st ix
  pure { st with os := st.os ++ toString c ++ ", " }

/-- The function `operator<<( std::ostream &os, const Point<T, dim>& pt )` once more,
statement by statement as `operatorShl`, with the point and the indices passed to
`operator[]` carried along. -/
def operatorShlTraced {T : Type} {dim : Nat} [ToString T] (os : String) (pt : Point T dim) :
    Except Fault (ShlState T dim) := do
  let st : ShlState T dim := ⟨os ++ "( ", pt, []⟩
  let st ← forLoop 0 ((dim : Int) - 1) operatorShlTraced.body st
  let (c, st) ← operatorShlTraced.read st ((dim : Int) - 1)
  let st := { st with os := st.os ++ toString c }
  pure { st with os := st.os ++ " )" }

end Lesson04

/-! ## `object_lesson03.cpp`: `Point3d<T>` -/

namespace Lesson03

/-- The class `Point3d<T>` with its members `_x`, `_y`, `_z`. -/
structure Point3d (T : Type) where
  _x : T
  _y : T
  _z : T

namespace Point3d

variable {T : Type}

/-- The constructor `Point3d ( T x = 0.0, T y = 0.0, T z = 0.0 )` with all three arguments
given. -/
def Construct (x y z : T) : Point3d T := ⟨x, y, z⟩

/-- The constructor called with two arguments: `z` takes its default, zero. -/
def Construct2 [Zero T] (x y : T) : Point3d T := Construct x y 0

/-- The constructor called with one argument: `y` and `z` take their default, zero. -/
def Construct1 [Zero T] (x : T) : Point3d T := Construct x 0 0

/-- The constructor called with no argument: all three members take their default, zero. -/
def Construct0 [Zero T] : Point3d T := Construct 0 0 0

/-- The getter `T x() const`. -/
def x (pt : Point3d T) : T := pt._x

/-- The getter `T y() const`. -/
def y (pt : Point3d T) : T := pt._y

/-- The getter `T z() const`. -/
def z (pt : Point3d T) : T := pt._z

/-- The setter `void x( T xval )`: the point after the call. -/
def setX (pt : Point3d T) (xval : T) : Point3d T := { pt with _x := xval }

/-- The setter `void y( T yval )`: the point after the call. -/
def setY (pt : Point3d T) (yval : T) : Point3d T := { pt with _y := yval }

/-- The setter `void z( T zval )`: the point after the call. -/
def setZ (pt : Point3d T) (zval : T) : Point3d T := { pt with _z := zval }

end Point3d

/-- The function `operator<<( std::ostream &os, const Point3d<T>& pt )`: the text of the
stream after the call, `os` being its text before.  The source function ends without a
`return` statement, so the returned reference is not modelled. -/
def operatorShl {T : Type} [ToString T] (os : String) (pt : Point3d T) : String :=
  os ++ "( " ++ toString pt.x ++ ", " ++ toString pt.y ++ ", " ++ toString pt.z ++ " )"

end Lesson03

/-! ## Properties -/

section Loops

variable {σ : Type}

/-- The loop tests `lo < hi` before each iteration. -/
theorem forLoop_step (lo hi : Int) (body : Int → σ → Except Fault σ) (s : σ) :
    forLoop lo hi body s =
      if lo < hi then
        match body lo s with
        | .ok s1 => forLoop (lo + 1) hi body s1
        | .error e => .error e
      else .ok s := by
  unfold forLoop
  split
  · next h =>
    have e : (hi - lo).toNat = (hi - (lo + 1)).toNat + 1 := by omega
    rw [e, forLoop.go]
  · next h =>
    have e : (hi - lo).toNat = 0 := by omega
    rw [e, forLoop.go]

end Loops

namespace Lesson04

namespace Point

variable {T : Type} {dim : Nat}

theorem subscript_ok (index : Int) (h0 : 0 ≤ index) (h1 : index < dim) :
    subscript dim index = .ok ⟨index.toNat, by omega⟩ := by
  unfold subscript
  rw [dif_pos ⟨h0, h1⟩]

theorem operatorIndex_ok (p : Point T dim) (index : Int) (h0 : 0 ≤ index) (h1 : index < dim) :
    p.operatorIndex index = .ok ⟨index.toNat, by omega⟩ := by
  have hc : (decide (index < (dim : Int)) && decide (index ≥ 0)) = true := by
    simp [h0, h1]
  unfold operatorIndex
  rw [hc, subscript_ok index h0 h1]
  rfl

theorem operatorIndex_error (p : Point T dim) (index : Int)
    (h : ¬ (0 ≤ index ∧ index < dim)) : p.operatorIndex index = .error .assertion := by
  have hc : (decide (index < (dim : Int)) && decide (index ≥ 0)) = false := by
    rw [Bool.and_eq_false_iff]
    by_cases h1 : index < (dim : Int)
    · right
      exact decide_eq_false (fun h0 => h ⟨h0, h1⟩)
    · left
      exact decide_eq_false h1
  unfold operatorIndex
  rw [hc]
  rfl

theorem operatorIndexConst_ok (p : Point T dim) (index : Int) (h0 : 0 ≤ index)
    (h1 : index < dim) : p.operatorIndexConst index = .ok (p.load ⟨index.toNat, by omega⟩) := by
  have hc : (decide (index < (dim : Int)) && decide (index ≥ 0)) = true := by
    simp [h0, h1]
  unfold operatorIndexConst
  rw [hc, subscript_ok index h0 h1]
  rfl

theorem operatorIndexConst_error (p : Point T dim) (index : Int)
    (h : ¬ (0 ≤ index ∧ index < dim)) : p.operatorIndexConst index = .error .assertion := by
  have hc : (decide (index < (dim : Int)) && decide (index ≥ 0)) = false := by
    rw [Bool.and_eq_false_iff]
    by_cases h1 : index < (dim : Int)
    · right
      exact decide_eq_false (fun h0 => h ⟨h0, h1⟩)
    · left
      exact decide_eq_false h1
  unfold operatorIndexConst
  rw [hc]
  rfl

theorem load_store_same (p : Point T dim) (r : Fin dim) (v : T) : (p.store r v).load r = v := by
  simp [load, store]

theorem load_store_ne (p : Point T dim) (r q : Fin dim) (v : T) (h : q ≠ r) :
    (p.store r v).load q = p.load q := by
  have hne : r.val ≠ q.val := fun e => h (Fin.ext e.symm)
  simp [load, store, List.getElem_set_ne hne]

theorem Set_ok (p : Point T dim) (index : Int) (v : T) (h0 : 0 ≤ index) (h1 : index < dim) :
    p.Set index v = (.ok (), p.store ⟨index.toNat, by omega⟩ v) := by
  unfold Set
  rw [operatorIndex_ok p index h0 h1]

theorem Set_error (p : Point T dim) (index : Int) (v : T) (h : ¬ (0 ≤ index ∧ index < dim)) :
    p.Set index v = (.error .assertion, p) := by
  unfold Set
  rw [operatorIndex_error p index h]

end Point

end Lesson04

namespace Lesson04

namespace Point

variable {T : Type} {dim : Nat}

theorem readArray_ok (coords : List T) (i : Nat) (h : i < coords.length) :
    readArray coords (i : Int) = .ok (coords.get ⟨i, h⟩) := by
  unfold readArray
  simp [List.getElem?_eq_getElem h]

theorem readArray_error (coords : List T) (i : Nat) (h : coords.length ≤ i) :
    readArray coords (i : Int) = .error .undefined := by
  unfold readArray
  simp [List.getElem?_eq_none h]

theorem Construct_eq (mem : Point T dim) (coords : List T) :
    Construct mem coords = forLoop.go (Construct.body coords) dim 0 mem := by
  unfold Construct forLoop
  simp

theorem Construct_body_ok (coords : List T) (i : Nat) (s : Point T dim) (h : i < coords.length)
    (hd : i < dim) :
    Construct.body coords (i : Int) s = .ok (s.store ⟨i, hd⟩ (coords.get ⟨i, h⟩)) := by
  unfold Construct.body
  rw [readArray_ok coords i h, subscript_ok (i : Int) (by omega) (by omega)]
  rfl

theorem Construct_body_error (coords : List T) (i : Nat) (s : Point T dim)
    (h : coords.length ≤ i) : Construct.body coords (i : Int) s = .error .undefined := by
  unfold Construct.body
  rw [readArray_error coords i h]
  rfl

theorem Construct_go_ok (coords : List T) (hlen : dim ≤ coords.length) :
    ∀ (n i : Nat) (s : Point T dim), i + n = dim →
      ∃ p, forLoop.go (Construct.body coords) n (i : Int) s = .ok p ∧
        ∀ j : Nat, p._coords[j]? = if j < i then s._coords[j]? else (coords.take dim)[j]? := by
  intro n
  induction n with
  | zero =>
    intro i s hi
    refine ⟨s, rfl, fun j => ?_⟩
    split
    · rfl
    · next hj =>
      rw [List.getElem?_eq_none (by rw [s.size_eq]; omega),
        List.getElem?_eq_none (by rw [List.length_take]; omega)]
  | succ n ih =>
    intro i s hi
    have hd : i < dim := by omega
    obtain ⟨p, hp, hj⟩ := ih (i + 1) (s.store ⟨i, hd⟩ (coords.get ⟨i, by omega⟩)) (by omega)
    refine ⟨p, ?_, fun j => ?_⟩
    · rw [forLoop.go, Construct_body_ok coords i s (by omega) hd]
      exact hp
    · rw [hj j]
      by_cases h1 : j < i
      · rw [if_pos h1, if_pos (by omega)]
        simp only [store]
        rw [List.getElem?_set_ne (by omega)]
      · rw [if_neg h1]
        by_cases h2 : j = i
        · subst h2
          rw [if_pos (by omega)]
          simp only [store]
          have hs : j < s._coords.length := by rw [s.size_eq]; exact hd
          rw [List.getElem?_set_self hs, List.getElem?_take, if_pos hd,
            List.getElem?_eq_getElem (by omega)]
          rfl
        · rw [if_neg (by omega)]

theorem Construct_go_error (coords : List T) (hlen : coords.length < dim) :
    ∀ (n i : Nat) (s : Point T dim), i + n = dim → i ≤ coords.length →
      forLoop.go (Construct.body coords) n (i : Int) s = .error .undefined := by
  intro n
  induction n with
  | zero => intro i s hi hle; omega
  | succ n ih =>
    intro i s hi hle
    rw [forLoop.go]
    by_cases h : i < coords.length
    · rw [Construct_body_ok coords i s h (by omega)]
      exact ih (i + 1) _ (by omega) (by omega)
    · rw [Construct_body_error coords i s (by omega)]

theorem Construct_ok (mem : Point T dim) (coords : List T) (hlen : dim ≤ coords.length) :
    ∃ p, Construct mem coords = .ok p ∧ p._coords = coords.take dim := by
  obtain ⟨p, hp, hj⟩ := Construct_go_ok coords hlen dim 0 mem (by omega)
  refine ⟨p, ?_, ?_⟩
  · rw [Construct_eq]; exact hp
  · apply List.ext_getElem?
    intro j
    rw [hj j, if_neg (by omega)]

theorem Construct_error (mem : Point T dim) (coords : List T) (hlen : coords.length < dim) :
    Construct mem coords = .error .undefined := by
  rw [Construct_eq]
  exact Construct_go_error coords hlen dim 0 mem (by omega) (by omega)

end Point

end Lesson04

namespace Lesson04

variable {T : Type} {dim : Nat}

/-- The accumulating loop of `String.intercalate` on a list with last element `last`. -/
theorem intercalate_go_snoc [ToString T] (s : String) (last : T) :
    ∀ (l : List T) (acc : String),
      String.intercalate.go acc s ((l ++ [last]).map toString) =
        l.foldl (fun a c => a ++ toString c ++ s) (acc ++ s) ++ toString last := by
  intro l
  induction l with
  | nil => intro acc; simp [String.intercalate.go]
  | cons b r ih =>
    intro acc
    simp only [List.cons_append, List.map_cons, String.intercalate.go, List.foldl_cons]
    exact ih (acc ++ s ++ toString b)

/-- The text appended by the loop does not depend on what the stream held before. -/
theorem foldl_text_append [ToString T] (s : String) :
    ∀ (l : List T) (acc : String),
      l.foldl (fun a c => a ++ toString c ++ s) acc =
        acc ++ l.foldl (fun a c => a ++ toString c ++ s) "" := by
  intro l
  induction l with
  | nil => intro acc; simp
  | cons b r ih =>
    intro acc
    simp only [List.foldl_cons]
    rw [ih (acc ++ toString b ++ s), ih ("" ++ toString b ++ s)]
    simp [String.append_assoc]

/-- Joining the texts of `l ++ [last]` with the separator `s` gives the text of each element
of `l` followed by `s`, and then the text of `last`. -/
theorem intercalate_snoc [ToString T] (s : String) (l : List T) (last : T) :
    s.intercalate ((l ++ [last]).map toString) =
      l.foldl (fun a c => a ++ toString c ++ s) "" ++ toString last := by
  cases l with
  | nil => simp [String.intercalate, String.intercalate.go]
  | cons b r =>
    simp only [List.cons_append, List.map_cons, String.intercalate, List.foldl_cons]
    exact intercalate_go_snoc s last r (toString b)

theorem operatorShl_body_ok [ToString T] (pt : Point T dim) (i : Nat) (os : String)
    (h : i < pt._coords.length) :
    operatorShl.body pt (i : Int) os = .ok (os ++ toString (pt._coords.get ⟨i, h⟩) ++ ", ") := by
  have hd : i < dim := by rw [← pt.size_eq]; exact h
  unfold operatorShl.body
  rw [Point.operatorIndexConst_ok pt (i : Int) (by omega) (by omega)]
  rfl

theorem operatorShl_go_ok [ToString T] (pt : Point T dim) :
    ∀ (n i : Nat) (os : String), i + n ≤ dim →
      forLoop.go (operatorShl.body pt) n (i : Int) os =
        .ok (((pt._coords.drop i).take n).foldl (fun a c => a ++ toString c ++ ", ") os) := by
  intro n
  induction n with
  | zero => intro i os _; simp [forLoop.go]
  | succ n ih =>
    intro i os hi
    have h : i < pt._coords.length := by rw [pt.size_eq]; omega
    rw [forLoop.go, operatorShl_body_ok pt i os h]
    show forLoop.go (operatorShl.body pt) n (((i + 1 : Nat) : Int)) _ = _
    rw [ih (i + 1) _ (by omega), List.drop_eq_getElem_cons h]
    rfl

/-- The list of the coordinates of a point of dimension at least one ends with the
coordinate `dim - 1`. -/
theorem Point.coords_eq_take_append_last (pt : Point T dim) (h : dim - 1 < pt._coords.length) :
    pt._coords = pt._coords.take (dim - 1) ++ [pt._coords.get ⟨dim - 1, h⟩] := by
  have hl := pt.size_eq
  apply List.ext_getElem
  · simp; omega
  · intro j h1 h2
    by_cases hj : j < dim - 1
    · rw [List.getElem_append_left (by simp; omega)]
      simp
    · have : j = dim - 1 := by omega
      subst this
      rw [List.getElem_append_right (by simp)]
      simp [hl]

/-- What `operator<<` writes, for any text already in the stream. -/
theorem operatorShl_eq [ToString T] (hdim : 1 ≤ dim) (os : String) (pt : Point T dim) :
    operatorShl os pt =
      .ok (os ++ "( " ++ ", ".intercalate (pt._coords.map toString) ++ " )") := by
  have h : dim - 1 < pt._coords.length := by rw [pt.size_eq]; omega
  have hloop : forLoop 0 ((dim : Int) - 1) (operatorShl.body pt) (os ++ "( ") =
      .ok ((pt._coords.take (dim - 1)).foldl (fun a c => a ++ toString c ++ ", ")
        (os ++ "( ")) := by
    unfold forLoop
    have e : ((dim : Int) - 1 - 0).toNat = dim - 1 := by omega
    rw [e]
    have := operatorShl_go_ok pt (dim - 1) 0 (os ++ "( ") (by omega)
    simpa using this
  have hlast : pt.operatorIndexConst ((dim : Int) - 1) =
      .ok (pt._coords.get ⟨dim - 1, h⟩) := by
    rw [Point.operatorIndexConst_ok pt ((dim : Int) - 1) (by omega) (by omega)]
    have e : ((dim : Int) - 1).toNat = dim - 1 := by omega
    simp [Point.load, e]
  unfold operatorShl
  simp only [hloop, hlast]
  show Except.ok _ = _
  congr 1
  conv_rhs => rw [Point.coords_eq_take_append_last pt h, intercalate_snoc]
  rw [foldl_text_append]
  simp [String.append_assoc]

end Lesson04

namespace Lesson04

variable {T : Type} {dim : Nat}

/-- The read `p[ i ]` returns the element `i` of the list of the coordinates. -/
theorem Point.Get_of_getElem? (p : Point T dim) (i : Nat) (c : T) (h : p._coords[i]? = some c) :
    (p.Get (i : Int)).1 = .ok c := by
  obtain ⟨hi, hc⟩ := List.getElem?_eq_some_iff.mp h
  have hd : i < dim := by rw [← p.size_eq]; exact hi
  show p.operatorIndexConst (i : Int) = _
  rw [Point.operatorIndexConst_ok p (i : Int) (by omega) (by omega)]
  simp [Point.load, hc]

end Lesson04

namespace Lesson04

variable {T : Type} {dim : Nat}

theorem operatorShlTraced_read_ok (st : ShlState T dim) (i : Nat)
    (h : i < st.pt._coords.length) :
    operatorShlTraced.read st (i : Int) =
      .ok (st.pt._coords.get ⟨i, h⟩, { st with reads := st.reads ++ [(i : Int)] }) := by
  have hg : st.pt.Get (i : Int) = (.ok (st.pt._coords.get ⟨i, h⟩), st.pt) := by
    have h1 := Point.Get_of_getElem? st.pt i (st.pt._coords.get ⟨i, h⟩)
      (by rw [List.getElem?_eq_getElem h]; rfl)
    exact Prod.ext h1 rfl
  unfold operatorShlTraced.read
  rw [hg]

theorem operatorShlTraced_body_ok [ToString T] (st : ShlState T dim) (i : Nat)
    (h : i < st.pt._coords.length) :
    operatorShlTraced.body (i : Int) st =
      .ok ⟨st.os ++ toString (st.pt._coords.get ⟨i, h⟩) ++ ", ", st.pt,
        st.reads ++ [(i : Int)]⟩ := by
  unfold operatorShlTraced.body
  rw [operatorShlTraced_read_ok st i h]
  rfl

theorem operatorShlTraced_go_ok [ToString T] :
    ∀ (n i : Nat) (st : ShlState T dim), i + n ≤ dim →
      forLoop.go operatorShlTraced.body n (i : Int) st =
        .ok ⟨((st.pt._coords.drop i).take n).foldl (fun a c => a ++ toString c ++ ", ") st.os,
          st.pt, st.reads ++ (List.range' i n).map (fun k : Nat => (k : Int))⟩ := by
  intro n
  induction n with
  | zero => intro i st _; simp [forLoop.go]
  | succ n ih =>
    intro i st hi
    have h : i < st.pt._coords.length := by rw [st.pt.size_eq]; omega
    rw [forLoop.go, operatorShlTraced_body_ok st i h]
    show forLoop.go operatorShlTraced.body n (((i + 1 : Nat) : Int)) _ = _
    rw [ih (i + 1) _ (by omega)]
    simp only [List.drop_eq_getElem_cons h, List.take_succ_cons, List.foldl_cons,
      List.range'_succ, List.map_cons, List.append_assoc, List.singleton_append]
    rfl

/-- The whole observed run of `operator<<` on a point of dimension at least one. -/
theorem operatorShlTraced_eq [ToString T] (hdim : 1 ≤ dim) (os : String) (pt : Point T dim) :
    operatorShlTraced os pt =
      .ok ⟨os ++ "( " ++ ", ".intercalate (pt._coords.map toString) ++ " )", pt,
        (List.range dim).map (fun k : Nat => (k : Int))⟩ := by
  have h : dim - 1 < pt._coords.length := by rw [pt.size_eq]; omega
  have hloop : forLoop 0 ((dim : Int) - 1) operatorShlTraced.body
      (⟨os ++ "( ", pt, []⟩ : ShlState T dim) =
      .ok ⟨(pt._coords.take (dim - 1)).foldl (fun a c => a ++ toString c ++ ", ")
        (os ++ "( "), pt, (List.range' 0 (dim - 1)).map (fun k : Nat => (k : Int))⟩ := by
    unfold forLoop
    have e : ((dim : Int) - 1 - 0).toNat = dim - 1 := by omega
    rw [e]
    have := operatorShlTraced_go_ok (dim - 1) 0 (⟨os ++ "( ", pt, []⟩ : ShlState T dim)
      (by omega)
    simpa using this
  have e1 : ((dim : Int) - 1) = ((dim - 1 : Nat) : Int) := by omega
  have hlast := operatorShlTraced_read_ok (⟨(pt._coords.take (dim - 1)).foldl
    (fun a c => a ++ toString c ++ ", ") (os ++ "( "), pt,
    (List.range' 0 (dim - 1)).map (fun k : Nat => (k : Int))⟩ : ShlState T dim) (dim - 1) h
  rw [← e1] at hlast
  unfold operatorShlTraced
  simp only [hloop, bind, Except.bind, hlast]
  show Except.ok _ = _
  congr 1
  have htext : (pt._coords.take (dim - 1)).foldl (fun a c => a ++ toString c ++ ", ")
      (os ++ "( ") ++ toString (pt._coords.get ⟨dim - 1, h⟩) ++ " )" =
      os ++ "( " ++ ", ".intercalate (pt._coords.map toString) ++ " )" := by
    conv_rhs => rw [Point.coords_eq_take_append_last pt h, intercalate_snoc]
    rw [foldl_text_append]
    simp [String.append_assoc]
  have hreads : (List.range' 0 (dim - 1)).map (fun k : Nat => (k : Int)) ++ [((dim - 1 : Nat) : Int)]
      = (List.range dim).map (fun k : Nat => (k : Int)) := by
    have e2 : dim = (dim - 1) + 1 := by omega
    conv_rhs => rw [e2, List.range_succ, List.map_append, List.range_eq_range']
    rfl
  rw [← e1] at hreads
  simp only [htext, hreads]

/-- The observed run writes what `operatorShl` writes, for every dimension. -/
theorem operatorShlTraced_os [ToString T] (os : String) (pt : Point T dim) :
    (operatorShlTraced os pt).map (fun st => st.os) = operatorShl os pt := by
  by_cases hdim : 1 ≤ dim
  · rw [operatorShlTraced_eq hdim, operatorShl_eq hdim]
    rfl
  · have h0 : dim = 0 := by omega
    subst h0
    rfl

/-- Two points with the same array of coordinates are the same point. -/
theorem Point.eq_of_coords (p q : Point T dim) (h : p._coords = q._coords) : p = q := by
  cases p
  cases q
  simp only at h
  subst h
  rfl

theorem Point.store_store_comm (p : Point T dim) (r q : Fin dim) (v w : T) (h : r ≠ q) :
    (p.store r v).store q w = (p.store q w).store r v := by
  apply Point.eq_of_coords
  have hne : r.val ≠ q.val := fun e => h (Fin.ext e)
  exact List.set_comm v w p._coords hne

theorem Point.store_store_same (p : Point T dim) (r : Fin dim) (v w : T) :
    (p.store r v).store r w = p.store r w := by
  apply Point.eq_of_coords
  exact List.set_set v w p._coords r.val

end Lesson04

section Claims

open Lesson04

variable {T : Type} {dim : Nat}

/-- Claim C1: for a point `p` of `Point<T, dim>`, an index `i` with `0 ≤ i < dim` and a value
`v`, the write `p[ i ] = v` succeeds and the read `p[ i ]` that follows it returns exactly
`v`. -/
theorem set_then_get_returns_value (p : Point T dim) (i : Int) (v : T)
    (h0 : 0 ≤ i) (h1 : i < dim) :
    (p.Set i v).1 = .ok () ∧ ((p.Set i v).2.Get i).1 = .ok v := by
  rw [Point.Set_ok p i v h0 h1]
  refine ⟨rfl, ?_⟩
  show Point.operatorIndexConst _ i = _
  rw [Point.operatorIndexConst_ok _ i h0 h1, Point.load_store_same]

/-- Witness of claim C1 at the point `(7, 8, 9)`, index `1` and value `5`. -/
theorem set_then_get_returns_value_witness :
    ((⟨[7, 8, 9], rfl⟩ : Point Int 3).Set 1 5).1 = .ok () ∧
      (((⟨[7, 8, 9], rfl⟩ : Point Int 3).Set 1 5).2.Get 1).1 = .ok 5 :=
  set_then_get_returns_value (⟨[7, 8, 9], rfl⟩ : Point Int 3) 1 5 (by decide) (by decide)

/-- Claim C4: for `dim ≥ 1` and any integer `index`, the read `p[ index ]` and the write
`p[ index ] = v` succeed exactly when `0 ≤ index < dim`, and stop with the failing assertion
otherwise; the reads at `-1` and at `dim` fail, the reads at `0` and at `dim - 1` succeed. -/
theorem indexed_access_succeeds_iff_in_range (hdim : 1 ≤ dim) (p : Point T dim) (index : Int)
    (v : T) :
    ((∃ c, (p.Get index).1 = .ok c) ↔ (0 ≤ index ∧ index < dim)) ∧
    ((p.Set index v).1 = .ok () ↔ (0 ≤ index ∧ index < dim)) ∧
    (¬ (0 ≤ index ∧ index < dim) →
      (p.Get index).1 = .error .assertion ∧ (p.Set index v).1 = .error .assertion) ∧
    (p.Get (-1)).1 = .error .assertion ∧
    (p.Get dim).1 = .error .assertion ∧
    (∃ c, (p.Get 0).1 = .ok c) ∧
    (∃ c, (p.Get ((dim : Int) - 1)).1 = .ok c) := by
  have hget : ∀ k : Int, (p.Get k).1 = p.operatorIndexConst k := fun _ => rfl
  refine ⟨?_, ?_, ?_, ?_, ?_, ?_, ?_⟩
  · constructor
    · rintro ⟨c, hc⟩
      by_contra hn
      rw [hget, Point.operatorIndexConst_error p index hn] at hc
      cases hc
    · rintro ⟨h0, h1⟩
      exact ⟨_, by rw [hget, Point.operatorIndexConst_ok p index h0 h1]⟩
  · constructor
    · intro hc
      by_contra hn
      rw [Point.Set_error p index v hn] at hc
      cases hc
    · rintro ⟨h0, h1⟩
      rw [Point.Set_ok p index v h0 h1]
  · intro hn
    exact ⟨by rw [hget, Point.operatorIndexConst_error p index hn],
      by rw [Point.Set_error p index v hn]⟩
  · rw [hget, Point.operatorIndexConst_error p (-1) (by omega)]
  · rw [hget, Point.operatorIndexConst_error p dim (by omega)]
  · exact ⟨_, by rw [hget, Point.operatorIndexConst_ok p 0 (by omega) (by omega)]⟩
  · exact ⟨_, by rw [hget, Point.operatorIndexConst_ok p ((dim : Int) - 1) (by omega) (by omega)]⟩

/-- Witness of claim C4 at the point `(7, 8, 9)` of dimension `3`, index `3` and value `5`. -/
theorem indexed_access_succeeds_iff_in_range_witness :
    (1 ≤ 3) ∧
    (((∃ c, ((⟨[7, 8, 9], rfl⟩ : Point Int 3).Get 3).1 = .ok c) ↔ ((0 : Int) ≤ 3 ∧ (3 : Int) < (3 : Nat))) ∧
    (((⟨[7, 8, 9], rfl⟩ : Point Int 3).Set 3 5).1 = .ok () ↔ ((0 : Int) ≤ 3 ∧ (3 : Int) < (3 : Nat))) ∧
    (¬ ((0 : Int) ≤ 3 ∧ (3 : Int) < (3 : Nat)) →
      ((⟨[7, 8, 9], rfl⟩ : Point Int 3).Get 3).1 = .error .assertion ∧
        ((⟨[7, 8, 9], rfl⟩ : Point Int 3).Set 3 5).1 = .error .assertion) ∧
    ((⟨[7, 8, 9], rfl⟩ : Point Int 3).Get (-1)).1 = .error .assertion ∧
    ((⟨[7, 8, 9], rfl⟩ : Point Int 3).Get (3 : Nat)).1 = .error .assertion ∧
    (∃ c, ((⟨[7, 8, 9], rfl⟩ : Point Int 3).Get 0).1 = .ok c) ∧
    (∃ c, ((⟨[7, 8, 9], rfl⟩ : Point Int 3).Get (((3 : Nat) : Int) - 1)).1 = .ok c)) :=
  ⟨by decide, indexed_access_succeeds_iff_in_range (by decide) (⟨[7, 8, 9], rfl⟩ : Point Int 3) 3 5⟩

/-- Claim C5: for valid indices `i` and `j` with `j ≠ i` and a value `v`, the write
`p[ i ] = v` succeeds and the read `p[ j ]` after it returns what it returned before it. -/
theorem set_keeps_other_coordinates (p : Point T dim) (i j : Int) (v : T)
    (hi0 : 0 ≤ i) (hi1 : i < dim) (hj0 : 0 ≤ j) (hj1 : j < dim) (hne : j ≠ i) :
    (p.Set i v).1 = .ok () ∧ (∃ c, (p.Get j).1 = .ok c) ∧
      ((p.Set i v).2.Get j).1 = (p.Get j).1 := by
  rw [Point.Set_ok p i v hi0 hi1]
  refine ⟨rfl, ⟨_, Point.operatorIndexConst_ok p j hj0 hj1⟩, ?_⟩
  show Point.operatorIndexConst _ j = Point.operatorIndexConst p j
  rw [Point.operatorIndexConst_ok _ j hj0 hj1, Point.operatorIndexConst_ok p j hj0 hj1,
    Point.load_store_ne]
  intro e
  apply hne
  have := congrArg Fin.val e
  simp only at this
  omega

/-- Witness of claim C5 at the point `(7, 8, 9)`: writing `5` at index `1`, reading index
`2`. -/
theorem set_keeps_other_coordinates_witness :
    ((⟨[7, 8, 9], rfl⟩ : Point Int 3).Set 1 5).1 = .ok () ∧
      (∃ c, ((⟨[7, 8, 9], rfl⟩ : Point Int 3).Get 2).1 = .ok c) ∧
      (((⟨[7, 8, 9], rfl⟩ : Point Int 3).Set 1 5).2.Get 2).1
        = ((⟨[7, 8, 9], rfl⟩ : Point Int 3).Get 2).1 :=
  set_keeps_other_coordinates (⟨[7, 8, 9], rfl⟩ : Point Int 3) 1 2 5
    (by decide) (by decide) (by decide) (by decide) (by decide)

/-- Claim C6: for an index outside `[0, dim)`, the read `p[ index ]` and the write
`p[ index ] = v` stop with the failing assertion and leave the point as it was, so every
read of a coordinate gives the same outcome after the failed access as before it. -/
theorem failed_access_leaves_point (p : Point T dim) (index : Int) (v : T)
    (h : ¬ (0 ≤ index ∧ index < dim)) :
    p.Get index = (.error .assertion, p) ∧ p.Set index v = (.error .assertion, p) ∧
      ∀ j : Int, ((p.Get index).2.Get j).1 = (p.Get j).1 ∧
        ((p.Set index v).2.Get j).1 = (p.Get j).1 := by
  have hg : p.Get index = (.error .assertion, p) := by
    show (p.operatorIndexConst index, p) = _
    rw [Point.operatorIndexConst_error p index h]
  have hs := Point.Set_error p index v h
  refine ⟨hg, hs, fun j => ?_⟩
  rw [hg, hs]
  exact ⟨rfl, rfl⟩

/-- Witness of claim C6 at the point `(7, 8, 9)`, index `3` and value `5`. -/
theorem failed_access_leaves_point_witness :
    (⟨[7, 8, 9], rfl⟩ : Point Int 3).Get 3 = (.error .assertion, ⟨[7, 8, 9], rfl⟩) ∧
      (⟨[7, 8, 9], rfl⟩ : Point Int 3).Set 3 5 = (.error .assertion, ⟨[7, 8, 9], rfl⟩) ∧
      ∀ j : Int, (((⟨[7, 8, 9], rfl⟩ : Point Int 3).Get 3).2.Get j).1
          = ((⟨[7, 8, 9], rfl⟩ : Point Int 3).Get j).1 ∧
        (((⟨[7, 8, 9], rfl⟩ : Point Int 3).Set 3 5).2.Get j).1
          = ((⟨[7, 8, 9], rfl⟩ : Point Int 3).Get j).1 :=
  failed_access_leaves_point (⟨[7, 8, 9], rfl⟩ : Point Int 3) 3 5 (by decide)

/-- Claim C2: for a sequence `coords` of exactly `dim` values, the constructor
`Point( coords )` returns a point whose coordinates are `coords`, whatever the storage held
before: the read `p[ i ]` returns `coords[ i ]` for every `i` in `[0, dim)`. -/
theorem construct_copies_coords (mem : Point T dim) (coords : List T)
    (hlen : coords.length = dim) :
    ∃ p, Point.Construct mem coords = .ok p ∧ p._coords = coords ∧
      ∀ (i : Nat) (h : i < coords.length), (p.Get (i : Int)).1 = .ok (coords.get ⟨i, h⟩) := by
  obtain ⟨p, hp, hc⟩ := Point.Construct_ok mem coords (by omega)
  have hc2 : p._coords = coords := by rw [hc, ← hlen, List.take_length]
  refine ⟨p, hp, hc2, fun i h => ?_⟩
  apply Point.Get_of_getElem?
  rw [hc2, List.getElem?_eq_getElem h]
  rfl

/-- Witness of claim C2: the point built from `1, 2, 3` over storage holding `7, 7, 7`. -/
theorem construct_copies_coords_witness :
    ∃ p, Point.Construct (⟨[7, 7, 7], rfl⟩ : Point Int 3) [1, 2, 3] = .ok p ∧
      p._coords = [1, 2, 3] ∧
      ∀ (i : Nat) (h : i < ([1, 2, 3] : List Int).length),
        (p.Get (i : Int)).1 = .ok (([1, 2, 3] : List Int).get ⟨i, h⟩) :=
  construct_copies_coords (⟨[7, 7, 7], rfl⟩ : Point Int 3) [1, 2, 3] (by decide)

/-- Claim C3: for `dim ≥ 1`, `operator<<` on an empty stream writes exactly `( `, then the
texts of the coordinates `0 .. dim - 1` in index order joined by `, `, then ` )`; the joined
list has `dim` entries, so there are `dim - 1` separators and none after the last entry.
The point with the one coordinate `5` gives `( 5 )`, the point `1, 2, 3` gives
`( 1, 2, 3 )`. -/
theorem render_format [ToString T] (hdim : 1 ≤ dim) (p : Point T dim) :
    operatorShl "" p = .ok ("( " ++ ", ".intercalate (p._coords.map toString) ++ " )") ∧
    (p._coords.map toString).length = dim ∧
    (∀ (i : Nat) (h : i < p._coords.length), (p.Get (i : Int)).1 = .ok (p._coords.get ⟨i, h⟩)) ∧
    (∀ q : Point Int 1, q._coords = [5] → operatorShl "" q = .ok "( 5 )") ∧
    (∀ q : Point Int 3, q._coords = [1, 2, 3] → operatorShl "" q = .ok "( 1, 2, 3 )") := by
  refine ⟨?_, ?_, ?_, ?_, ?_⟩
  · rw [operatorShl_eq hdim "" p]
    simp
  · rw [List.length_map, p.size_eq]
  · intro i h
    apply Point.Get_of_getElem?
    rw [List.getElem?_eq_getElem h]
    rfl
  · intro q hq
    rw [operatorShl_eq (by decide) "" q, hq]
    rfl
  · intro q hq
    rw [operatorShl_eq (by decide) "" q, hq]
    rfl

/-- Witness of claim C3 at the point `4, -2, 0` of dimension `3`. -/
theorem render_format_witness :
    (1 ≤ 3) ∧ operatorShl "" (⟨[4, -2, 0], rfl⟩ : Point Int 3) = .ok "( 4, -2, 0 )" :=
  ⟨by decide, (render_format (by decide) (⟨[4, -2, 0], rfl⟩ : Point Int 3)).1⟩

/-- Claim C7: a point returned by the constructor `Point( coords )` holds exactly `dim`
coordinates, and so does the point left by any finite sequence of writes `p[ i ] = v` on it,
valid or failing: its array has `dim` cells and the read `p[ index ]` succeeds exactly for
`0 ≤ index < dim`. -/
theorem coordinate_count_invariant (mem : Point T dim) (coords : List T) (p : Point T dim)
    (_h : Point.Construct mem coords = .ok p) (calls : List (Int × T)) :
    p._coords.length = dim ∧ (p.SetAll calls)._coords.length = dim ∧
      ∀ index : Int,
        (∃ c, ((p.SetAll calls).Get index).1 = .ok c) ↔ (0 ≤ index ∧ index < dim) := by
  refine ⟨p.size_eq, (p.SetAll calls).size_eq, fun index => ?_⟩
  constructor
  · rintro ⟨c, hc⟩
    by_contra hn
    have he : ((p.SetAll calls).Get index).1 = .error .assertion :=
      Point.operatorIndexConst_error (p.SetAll calls) index hn
    rw [he] at hc
    cases hc
  · rintro ⟨h0, h1⟩
    exact ⟨_, Point.operatorIndexConst_ok (p.SetAll calls) index h0 h1⟩

/-- Witness of claim C7: the point built from `1, 2, 3`, then a valid write at `0`, a failing
write at `3` and a failing write at `-1`. -/
theorem coordinate_count_invariant_witness :
    Point.Construct (⟨[7, 7, 7], rfl⟩ : Point Int 3) [1, 2, 3] = .ok ⟨[1, 2, 3], rfl⟩ ∧
    (⟨[1, 2, 3], rfl⟩ : Point Int 3)._coords.length = 3 ∧
    ((⟨[1, 2, 3], rfl⟩ : Point Int 3).SetAll [(0, 9), (3, 9), (-1, 9)])._coords.length = 3 ∧
      ∀ index : Int,
        (∃ c, (((⟨[1, 2, 3], rfl⟩ : Point Int 3).SetAll [(0, 9), (3, 9), (-1, 9)]).Get index).1
          = .ok c) ↔ (0 ≤ index ∧ index < (3 : Nat)) :=
  ⟨by decide, coordinate_count_invariant (⟨[7, 7, 7], rfl⟩ : Point Int 3) [1, 2, 3]
    ⟨[1, 2, 3], rfl⟩ (by decide) [(0, 9), (3, 9), (-1, 9)]⟩

/-- Claim C8: for all `x`, `y`, `z`, the point `Point3d<T>( x, y, z )` and the point of
`Point<T, 3>` built from the sequence `x, y, z` agree: `x()`, `y()`, `z()` are what the reads
at `0`, `1`, `2` return, and `operator<<` appends the same text to a stream for both. -/
theorem point3d_agrees_with_point [ToString T] (x y z : T) (mem : Point T 3) (os : String) :
    ∃ p, Point.Construct mem [x, y, z] = .ok p ∧
      (p.Get 0).1 = .ok (Lesson03.Point3d.Construct x y z).x ∧
      (p.Get 1).1 = .ok (Lesson03.Point3d.Construct x y z).y ∧
      (p.Get 2).1 = .ok (Lesson03.Point3d.Construct x y z).z ∧
      operatorShl os p = .ok (Lesson03.operatorShl os (Lesson03.Point3d.Construct x y z)) := by
  obtain ⟨p, hp, hc⟩ := Point.Construct_ok mem [x, y, z] (by simp)
  have hc2 : p._coords = [x, y, z] := by simpa using hc
  refine ⟨p, hp, ?_, ?_, ?_, ?_⟩
  · exact Point.Get_of_getElem? p 0 _ (by rw [hc2]; rfl)
  · exact Point.Get_of_getElem? p 1 _ (by rw [hc2]; rfl)
  · exact Point.Get_of_getElem? p 2 _ (by rw [hc2]; rfl)
  · rw [operatorShl_eq (by decide) os p, hc2]
    simp [Lesson03.operatorShl, Lesson03.Point3d.Construct, Lesson03.Point3d.x,
      Lesson03.Point3d.y, Lesson03.Point3d.z, String.intercalate, String.intercalate.go,
      String.append_assoc]

/-- Claim C9: the point returned by the constructor `Point()` has all `dim` coordinates equal
to zero, and for `dim = 3` and integer coordinates `operator<<` writes `( 0, 0, 0 )` for
it. -/
theorem default_construct_is_zero [Zero T] :
    (∀ index : Int, 0 ≤ index → index < dim →
      ((Point.ConstructDefault : Point T dim).Get index).1 = .ok 0) ∧
    (Point.ConstructDefault : Point T dim)._coords.length = dim ∧
    operatorShl "" (Point.ConstructDefault : Point Int 3) = .ok "( 0, 0, 0 )" := by
  refine ⟨fun index h0 h1 => ?_, Point.ConstructDefault.size_eq, by decide⟩
  show Point.operatorIndexConst _ index = _
  rw [Point.operatorIndexConst_ok _ index h0 h1]
  simp [Point.load, Point.ConstructDefault]

/-- Witness of claim C9: coordinate `4` of the default point of dimension `5`. -/
theorem default_construct_is_zero_witness :
    (0 : Int) ≤ 4 ∧ (4 : Int) < (5 : Nat) ∧
      ((Point.ConstructDefault : Point Int 5).Get 4).1 = .ok 0 :=
  ⟨by decide, by decide, default_construct_is_zero.1 4 (by decide) (by decide)⟩

/-- Counterexample to claim C10: for `dim = 3` the constructor accepts the sequence
`1, 2, 3, 4`, whose length is not `dim`, and returns the point `1, 2, 3`. -/
theorem construct_accepts_longer_sequence :
    ([1, 2, 3, 4] : List Int).length ≠ 3 ∧
      Point.Construct (⟨[0, 0, 0], rfl⟩ : Point Int 3) [1, 2, 3, 4] = .ok ⟨[1, 2, 3], rfl⟩ := by
  decide

/-- Claim C10, amended: the constructor `Point( coords )` does not check the length of the
supplied sequence and has no error for it.  It succeeds exactly when the sequence holds at
least `dim` values, in particular exactly `dim`, and stores the first `dim` of them; with
fewer than `dim` values it reads past the end of the sequence, which is undefined behaviour
in the source. -/
theorem construct_succeeds_iff_enough_values (mem : Point T dim) (coords : List T) :
    ((∃ p, Point.Construct mem coords = .ok p) ↔ dim ≤ coords.length) ∧
    (dim ≤ coords.length →
      ∃ p, Point.Construct mem coords = .ok p ∧ p._coords = coords.take dim) ∧
    (coords.length < dim → Point.Construct mem coords = .error .undefined) := by
  refine ⟨⟨?_, fun h => ?_⟩, Point.Construct_ok mem coords, Point.Construct_error mem coords⟩
  · rintro ⟨p, hp⟩
    by_contra hn
    rw [Point.Construct_error mem coords (by omega)] at hp
    cases hp
  · obtain ⟨p, hp, _⟩ := Point.Construct_ok mem coords h
    exact ⟨p, hp⟩

/-- Witness of the amended claim C10 at `dim = 3` and the sequence `1, 2, 3, 4`. -/
theorem construct_succeeds_iff_enough_values_witness :
    3 ≤ ([1, 2, 3, 4] : List Int).length ∧
      ∃ p, Point.Construct (⟨[0, 0, 0], rfl⟩ : Point Int 3) [1, 2, 3, 4] = .ok p ∧
        p._coords = ([1, 2, 3, 4] : List Int).take 3 :=
  ⟨by decide,
    (construct_succeeds_iff_enough_values (⟨[0, 0, 0], rfl⟩ : Point Int 3) [1, 2, 3, 4]).2.1
      (by decide)⟩

/-- Claim C11: for `dim ≥ 1`, a point `p` and a stream that already holds the text `s`,
after `operator<<` the stream holds exactly `s` followed by the text that `operator<<` writes
for `p` on an empty stream, which ends with the closing parenthesis, and the point is still
`p`. -/
theorem render_appends_to_stream [ToString T] (hdim : 1 ≤ dim) (p : Point T dim) (s : String) :
    ∃ text, operatorShl "" p = .ok text ∧ operatorShl s p = .ok (s ++ text) ∧
      text = "( " ++ ", ".intercalate (p._coords.map toString) ++ " )" ∧
      ∃ st, operatorShlTraced s p = .ok st ∧ st.os = s ++ text ∧ st.pt = p := by
  refine ⟨"( " ++ ", ".intercalate (p._coords.map toString) ++ " )", ?_, ?_, rfl,
    _, operatorShlTraced_eq hdim s p, ?_, rfl⟩
  · rw [operatorShl_eq hdim "" p]
    simp
  · rw [operatorShl_eq hdim s p]
    simp [String.append_assoc]
  · simp [String.append_assoc]

/-- Witness of claim C11: the point `1, 2, 3` written to a stream that holds `p = `. -/
theorem render_appends_to_stream_witness :
    (1 ≤ 3) ∧ ∃ text, operatorShl "" (⟨[1, 2, 3], rfl⟩ : Point Int 3) = .ok text ∧
      operatorShl "p = " (⟨[1, 2, 3], rfl⟩ : Point Int 3) = .ok ("p = " ++ text) ∧
      text = "( " ++ ", ".intercalate
        ((⟨[1, 2, 3], rfl⟩ : Point Int 3)._coords.map toString) ++ " )" ∧
      ∃ st, operatorShlTraced "p = " (⟨[1, 2, 3], rfl⟩ : Point Int 3) = .ok st ∧
        st.os = "p = " ++ text ∧ st.pt = ⟨[1, 2, 3], rfl⟩ :=
  ⟨by decide, render_appends_to_stream (by decide) (⟨[1, 2, 3], rfl⟩ : Point Int 3) "p = "⟩

/-- Claim C12: for `dim ≥ 1`, the run of `operator<<` on a point `p` ends without a failing
assertion, and the indices it passes to `operator[]` are `0, 1, ..., dim - 1` in this order:
each lies in `[0, dim)`, each index of `[0, dim)` is passed exactly once, and they
increase. -/
theorem render_reads_each_index_once [ToString T] (hdim : 1 ≤ dim) (p : Point T dim)
    (s : String) :
    ∃ st, operatorShlTraced s p = .ok st ∧
      st.reads = (List.range dim).map (fun k : Nat => (k : Int)) ∧
      (∀ ix ∈ st.reads, 0 ≤ ix ∧ ix < dim) ∧
      (∀ ix : Int, 0 ≤ ix → ix < dim → st.reads.count ix = 1) ∧
      st.reads.Pairwise (fun a b => a < b) ∧
      (operatorShlTraced s p).map (fun st => st.os) = operatorShl s p := by
  have hpw : ((List.range dim).map (fun k : Nat => (k : Int))).Pairwise (fun a b => a < b) := by
    rw [List.pairwise_map]
    exact (List.pairwise_lt_range dim).imp (fun h => by omega)
  have hmem : ∀ ix : Int, ix ∈ (List.range dim).map (fun k : Nat => (k : Int)) ↔
      (0 ≤ ix ∧ ix < dim) := by
    intro ix
    rw [List.mem_map]
    constructor
    · rintro ⟨k, hk, rfl⟩
      rw [List.mem_range] at hk
      omega
    · rintro ⟨h0, h1⟩
      exact ⟨ix.toNat, List.mem_range.mpr (by omega), by omega⟩
  refine ⟨_, operatorShlTraced_eq hdim s p, rfl, fun ix h => (hmem ix).mp h, ?_, hpw,
    operatorShlTraced_os s p⟩
  intro ix h0 h1
  apply List.count_eq_one_of_mem
  · exact hpw.imp (fun h => by omega)
  · exact (hmem ix).mpr ⟨h0, h1⟩

/-- Witness of claim C12: the run on the point `7, 8, 9` passes the indices `0, 1, 2`. -/
theorem render_reads_each_index_once_witness :
    (1 ≤ 3) ∧ ∃ st, operatorShlTraced "" (⟨[7, 8, 9], rfl⟩ : Point Int 3) = .ok st ∧
      st.reads = (List.range 3).map (fun k : Nat => (k : Int)) ∧
      (∀ ix ∈ st.reads, 0 ≤ ix ∧ ix < (3 : Nat)) ∧
      (∀ ix : Int, 0 ≤ ix → ix < (3 : Nat) → st.reads.count ix = 1) ∧
      st.reads.Pairwise (fun a b => a < b) ∧
      (operatorShlTraced "" (⟨[7, 8, 9], rfl⟩ : Point Int 3)).map (fun st => st.os)
        = operatorShl "" (⟨[7, 8, 9], rfl⟩ : Point Int 3) :=
  ⟨by decide, render_reads_each_index_once (by decide) (⟨[7, 8, 9], rfl⟩ : Point Int 3) ""⟩

/-- Claim C13: for valid indices `i` and `j` and values `v` and `w`, all the writes succeed;
when `i ≠ j`, the writes `p[ i ] = v` then `p[ j ] = w` leave the same point as
`p[ j ] = w` then `p[ i ] = v`; and `p[ i ] = v` then `p[ i ] = w` leaves the same point as
`p[ i ] = w` alone. -/
theorem writes_commute_and_last_write_wins (p : Point T dim) (i j : Int) (v w : T)
    (hi0 : 0 ≤ i) (hi1 : i < dim) (hj0 : 0 ≤ j) (hj1 : j < dim) :
    (i ≠ j →
      ((p.Set i v).2.Set j w).1 = .ok () ∧ ((p.Set j w).2.Set i v).1 = .ok () ∧
        ((p.Set i v).2.Set j w).2 = ((p.Set j w).2.Set i v).2) ∧
    ((p.Set i v).2.Set i w).1 = .ok () ∧ (p.Set i w).1 = .ok () ∧
      ((p.Set i v).2.Set i w).2 = (p.Set i w).2 := by
  have hiv : ∀ q : Point T dim, q.Set i v = (.ok (), q.store ⟨i.toNat, by omega⟩ v) :=
    fun q => Point.Set_ok q i v hi0 hi1
  have hiw : ∀ q : Point T dim, q.Set i w = (.ok (), q.store ⟨i.toNat, by omega⟩ w) :=
    fun q => Point.Set_ok q i w hi0 hi1
  have hjw : ∀ q : Point T dim, q.Set j w = (.ok (), q.store ⟨j.toNat, by omega⟩ w) :=
    fun q => Point.Set_ok q j w hj0 hj1
  refine ⟨fun hne => ⟨?_, ?_, ?_⟩, ?_, ?_, ?_⟩
  · rw [hjw]
  · rw [hiv]
  · rw [hiv p, hjw p, hjw, hiv]
    apply Point.store_store_comm
    intro e
    apply hne
    have := congrArg Fin.val e
    simp only at this
    omega
  · rw [hiw]
  · rw [hiw]
  · rw [hiv p, hiw p, hiw]
    exact Point.store_store_same p _ v w

/-- Witness of claim C13 at the point `7, 8, 9`: the writes of `5` at `0` and of `6` at
`2`. -/
theorem writes_commute_and_last_write_wins_witness :
    ((0 : Int) ≠ 2) ∧
      (((⟨[7, 8, 9], rfl⟩ : Point Int 3).Set 0 5).2.Set 2 6).2
        = (((⟨[7, 8, 9], rfl⟩ : Point Int 3).Set 2 6).2.Set 0 5).2 ∧
      (((⟨[7, 8, 9], rfl⟩ : Point Int 3).Set 0 5).2.Set 0 6).2
        = ((⟨[7, 8, 9], rfl⟩ : Point Int 3).Set 0 6).2 :=
  ⟨by decide,
    ((writes_commute_and_last_write_wins (⟨[7, 8, 9], rfl⟩ : Point Int 3) 0 2 5 6
      (by decide) (by decide) (by decide) (by decide)).1 (by decide)).2.2,
    (writes_commute_and_last_write_wins (⟨[7, 8, 9], rfl⟩ : Point Int 3) 0 2 5 6
      (by decide) (by decide) (by decide) (by decide)).2.2.2⟩

/-- Claim C14: for a point `p` of `Point3d<T>` and a value `v`, after `p.x( v )` the getter
`x()` returns `v` and `y()`, `z()` return what they returned before; likewise for
`p.y( v )` and `p.z( v )`. -/
theorem point3d_setter_roundtrip_and_frame (p : Lesson03.Point3d T) (v : T) :
    ((p.setX v).x = v ∧ (p.setX v).y = p.y ∧ (p.setX v).z = p.z) ∧
    ((p.setY v).y = v ∧ (p.setY v).x = p.x ∧ (p.setY v).z = p.z) ∧
    ((p.setZ v).z = v ∧ (p.setZ v).x = p.x ∧ (p.setZ v).y = p.y) :=
  ⟨⟨rfl, rfl, rfl⟩, ⟨rfl, rfl, rfl⟩, ⟨rfl, rfl, rfl⟩⟩

/-- Claim C15: the constructor of `Point3d<T>` stores its arguments in order and an omitted
argument is zero: `Point3d( x, y, z )` has `x() == x`, `y() == y`, `z() == z`;
`Point3d( x, y )` has `z() == 0`; `Point3d( x )` has `y() == 0` and `z() == 0`; `Point3d()`
has all three equal to zero and `operator<<` writes `( 0, 0, 0 )` for it. -/
theorem point3d_constructor_defaults [Zero T] (x y z : T) :
    ((Lesson03.Point3d.Construct x y z).x = x ∧ (Lesson03.Point3d.Construct x y z).y = y ∧
      (Lesson03.Point3d.Construct x y z).z = z) ∧
    ((Lesson03.Point3d.Construct2 x y).x = x ∧ (Lesson03.Point3d.Construct2 x y).y = y ∧
      (Lesson03.Point3d.Construct2 x y).z = 0) ∧
    ((Lesson03.Point3d.Construct1 x).x = x ∧ (Lesson03.Point3d.Construct1 x).y = 0 ∧
      (Lesson03.Point3d.Construct1 x).z = 0) ∧
    ((Lesson03.Point3d.Construct0 : Lesson03.Point3d T).x = 0 ∧
      (Lesson03.Point3d.Construct0 : Lesson03.Point3d T).y = 0 ∧
      (Lesson03.Point3d.Construct0 : Lesson03.Point3d T).z = 0) ∧
    Lesson03.operatorShl "" (Lesson03.Point3d.Construct0 : Lesson03.Point3d Int)
      = "( 0, 0, 0 )" :=
  ⟨⟨rfl, rfl, rfl⟩, ⟨rfl, rfl, rfl⟩, ⟨rfl, rfl, rfl⟩, ⟨rfl, rfl, rfl⟩, by decide⟩

end Claims

end ObjectLessons
